import Mathlib

/-!
# Context creation commands (`cli/cmd/context/create.go`)

A shallow embedding of the `create` command family of the context CLI:
`createCommand`, `createLocalCommand`, `createExampleCommand`,
`createDockerContext` and `addDescriptionFlag`, together with the part of
cobra's command execution they rely on (flag lookup, positional-argument
validation, handler call).

The handlers are stateful: they reach a context store through the request
context and call its `Create`, or hand the command to the legacy executor.
State is passed explicitly in a `World`, which also records, in order, the
calls the handlers of this file make to their collaborators.

The store package lives outside `create.go`; its contract is written down after
the commands, and the properties that rest on it are kept apart from the
properties of the handlers alone.
-/

set_option autoImplicit false

namespace ContextCreate

/-! ## Values shared with the store package -/

/-- Go `error` values returned by the collaborators of this file.  The kinds are
the taxonomy of the store; `Message` stands for an error that only carries a
text (such as the one cobra builds when positional arguments are rejected). -/
inductive Error where
  | InvalidName
  | AlreadyExists
  | NotFound
  | InvalidOption
  | ConflictingOptions
  | PersistenceFailure (cause : String)
  | Message (text : String)
  deriving DecidableEq, Repr

instance instDecidableEqExcept {ε α : Type} [DecidableEq ε] [DecidableEq α] :
    DecidableEq (Except ε α)
  | Except.ok a, Except.ok b =>
    if h : a = b then isTrue (by rw [h]) else isFalse (fun h2 => h (Except.ok.inj h2))
  | Except.error a, Except.error b =>
    if h : a = b then isTrue (by rw [h]) else isFalse (fun h2 => h (Except.error.inj h2))
  | Except.ok _, Except.error _ => isFalse (fun h => Except.noConfusion h)
  | Except.error _, Except.ok _ => isFalse (fun h => Except.noConfusion h)

/-- Docker-engine-style endpoint: `host`, `ca`, `cert`, `key`, `skipTLSVerify`;
a field that was never set is `none`. -/
structure DockerEngineEndpoint where
  host : Option String
  ca : Option String
  cert : Option String
  key : Option String
  skipTLSVerify : Option Bool
  deriving DecidableEq, Repr

/-- Kubernetes endpoint: `configFile`, `contextOverride`, `namespaceOverride`,
all optional strings. -/
structure KubernetesEndpoint where
  configFile : Option String
  contextOverride : Option String
  namespaceOverride : Option String
  deriving DecidableEq, Repr

/-- The `interface{}` payload handed to `Create`: one of the endpoint descriptor
variants.  `store.LocalContext{}` is `Local`; `store.ExampleContext{}`, the zero
value of the example descriptor, is `Example []`. -/
inductive Descriptor where
  | Local
  | Example (fields : List (String × String))
  | Cloud (identifiers : List (String × String))
  | Kubernetes (endpoint : KubernetesEndpoint)
  | DockerEngine (endpoint : DockerEngineEndpoint)
  deriving DecidableEq, Repr

/-- Modelled from the spec: the constant `store.LocalContextType`, declared in the
store package; the kind tag of a local context is `local`. -/
def LocalContextType : String := "local"

/-- Modelled from the spec: the constant `store.ExampleContextType`, declared in
the store package; the kind tag of the example (fixture) context. -/
def ExampleContextType : String := "example"

/-! ## cobra: commands, flags, invocations -/

/-- The value a pflag flag holds: `flags.String` declares a string flag,
`flags.StringToString` a string-to-string map flag (a nil map has no entry);
cobra's own `help` flag is a boolean flag. -/
inductive FlagValue where
  | string (value : String)
  | stringToString (value : List (String × String))
  | bool (value : Bool)
  deriving DecidableEq, Repr

/-- A declared flag: its name, its default value and its usage line. -/
structure Flag where
  name : String
  defValue : FlagValue
  usage : String
  deriving DecidableEq, Repr

/-- The method `flags.String(name, value, usage)`: declares a string flag with default `value`. -/
def flagsString (fs : List Flag) (name value usage : String) : List Flag :=
  fs ++ [⟨name, FlagValue.string value, usage⟩]

/-- The method `flags.StringToString(name, value, usage)`: declares a string-to-string map
flag with default `value`. -/
def flagsStringToString (fs : List Flag) (name : String) (value : List (String × String))
    (usage : String) : List Flag :=
  fs ++ [⟨name, FlagValue.stringToString value, usage⟩]

/-- What the command line supplies to a command once cobra has split it: the
positional arguments and, in order, the flags that were set, each by its name
with the text of its value (`--help` alone carries the text `true`). -/
structure Invocation where
  args : List String
  flagArgs : List (String × String)
  deriving DecidableEq, Repr

/-- The `*cobra.Command` value a handler receives, as far as a collaborator can
observe it: the command's `Use` line and the invocation it was run with. -/
structure CmdObject where
  Use : String
  invocation : Invocation
  deriving DecidableEq, Repr

/-- A call made by a handler of this file to one of its collaborators. -/
inductive Call where
  | ContextStore
  | Create (name contextType description : String) (data : Descriptor)
  | ExecCmd (cmd : CmdObject)
  deriving DecidableEq, Repr

/-- The state the handlers run in: `sys` is everything behind the collaborators
(the persisted store, whatever the legacy executor touches); `calls` is the
record of the calls made so far, oldest first. -/
structure World (σ : Type) where
  sys : σ
  calls : List Call

/-- The collaborators that live outside this file: the `Create` method of the
store obtained from `store.ContextStore(ctx)`, and `dockerclassic.ExecCmd`.
Each returns the new state and a Go `error` (`none` is `nil`). -/
structure Env (σ : Type) where
  Create : σ → String → String → String → Descriptor → σ × Option Error
  ExecCmd : CmdObject → σ → σ × Option Error

/-- What running a handler produces: it returns (new world, `error`), or the Go
runtime panics. -/
inductive Outcome (σ : Type) where
  | returned (w : World σ) (err : Option Error)
  | panicked (reason : String)

/-- A cobra positional-argument validator (`Args`).  `none` is the field left
unset, which for these nested commands accepts any arguments. -/
abbrev PositionalArgs := Option (List String → Option Error)

/-- The handler stored in `RunE`, given the collaborators: it receives the
command object and the positional arguments. -/
abbrev Handler (σ : Type) := Env σ → CmdObject → List String → World σ → Outcome σ

/-- The fields of `cobra.Command` this file sets, with the flags declared on the
command and its subcommands. -/
inductive Command (σ : Type) where
  | mk (Use Short Long : String) (Args : PositionalArgs) (Hidden : Bool)
      (RunE : Handler σ) (flags : List Flag) (commands : List (Command σ))

namespace Command

variable {σ : Type}

def Use : Command σ → String
  | mk u _ _ _ _ _ _ _ => u

def Short : Command σ → String
  | mk _ s _ _ _ _ _ _ => s

def Long : Command σ → String
  | mk _ _ l _ _ _ _ _ => l

def Args : Command σ → PositionalArgs
  | mk _ _ _ a _ _ _ _ => a

def Hidden : Command σ → Bool
  | mk _ _ _ _ h _ _ _ => h

def RunE : Command σ → Handler σ
  | mk _ _ _ _ _ r _ _ => r

def flags : Command σ → List Flag
  | mk _ _ _ _ _ _ f _ => f

def commands : Command σ → List (Command σ)
  | mk _ _ _ _ _ _ _ c => c

end Command

/-- The function `cobra.ExactArgs(n)`: rejects every argument list whose length is not `n`. -/
def ExactArgs (n : Nat) : List String → Option Error := fun args =>
  if args.length ≠ n then
    some (Error.Message s!"accepts {n} arg(s), received {args.length}")
  else none

/-- The value of the string flag `name` after parsing: the value set on the
command line when there is one (the last one when it is set more than once),
else the declared default. -/
def stringFlag (flags : List Flag) (flagArgs : List (String × String)) (name : String) : String :=
  match flagArgs.reverse.lookup name with
  | some v => v
  | none =>
    match flags.find? (fun f => f.name == name) with
    | some ⟨_, FlagValue.string d, _⟩ => d
    | _ => ""

/-- The function `strconv.ParseBool`, which reads the value of a boolean flag. -/
def ParseBool (s : String) : Option Bool :=
  if s ∈ ["1", "t", "T", "TRUE", "true", "True"] then some true
  else if s ∈ ["0", "f", "F", "FALSE", "false", "False"] then some false
  else none

/-- The Go call `strings.Trim(val, "\"")`: the value without leading and trailing double quotes. -/
def trimQuotes (val : String) : String :=
  String.mk
    (((val.toList.dropWhile (fun c => c == Char.ofNat 34)).reverse.dropWhile
      (fun c => c == Char.ofNat 34)).reverse)

/-- The Go call `strings.SplitN(pair, "=", 2)`, when it gives two parts: the text before the
first `=` and the text after it. -/
def splitPair (pair : String) : Option (String × String) :=
  if '=' ∈ pair.toList then
    some (String.mk (pair.toList.takeWhile (fun c => c != '=')),
      String.mk ((pair.toList.dropWhile (fun c => c != '=')).drop 1))
  else none

/-- The loop of pflag's string-to-string `Set` over the fields: each must be `key=value`. -/
def parsePairs : List String → Except String (List (String × String))
  | [] => Except.ok []
  | pair :: rest =>
    match splitPair pair with
    | none => Except.error (pair ++ " must be formatted as key=value")
    | some kv =>
      match parsePairs rest with
      | Except.ok kvs => Except.ok (kv :: kvs)
      | Except.error e => Except.error e

/-- The method `Set` of pflag's string-to-string value: no `=` is an error, one `=` is a
single pair, more are read as one csv record.  `csvRead` is the record reader of Go's
`encoding/csv`; it gives the fields or the text of its error. -/
def stringToStringSet (csvRead : String → Except String (List String)) (val : String) :
    Except String (List (String × String)) :=
  match val.toList.count '=' with
  | 0 => Except.error (val ++ " must be formatted as key=value")
  | 1 => parsePairs [trimQuotes val]
  | _ =>
    match csvRead val with
    | Except.error e => Except.error e
    | Except.ok fields => parsePairs fields

/-- Setting one declared flag to the text `val`, as pflag does while parsing: `none` when
the value is accepted, else the error of the parse. -/
def setFlag (csvRead : String → Except String (List String)) (f : Flag) (val : String) :
    Option Error :=
  match f.defValue with
  | FlagValue.string _ => none
  | FlagValue.bool _ =>
    match ParseBool val with
    | some _ => none
    | none =>
      some (Error.Message ("invalid argument \"" ++ val ++ "\" for \"--" ++ f.name ++
        "\" flag: strconv.ParseBool: parsing \"" ++ val ++ "\": invalid syntax"))
  | FlagValue.stringToString _ =>
    match stringToStringSet csvRead val with
    | Except.ok _ => none
    | Except.error e =>
      some (Error.Message ("invalid argument \"" ++ val ++ "\" for \"--" ++ f.name ++
        "\" flag: " ++ e))

/-- The function `ParseFlags`: the flags set on the command line are taken in order; one
that is not in the flag set, or whose value its flag does not accept, ends the parse
with an error. -/
def parseFlags (csvRead : String → Except String (List String)) (flags : List Flag) :
    List (String × String) → Option Error
  | [] => none
  | (name, val) :: rest =>
    match flags.find? (fun f => f.name == name) with
    | none => some (Error.Message ("unknown flag: --" ++ name))
    | some f =>
      match setFlag csvRead f val with
      | some err => some err
      | none => parseFlags csvRead flags rest

/-- The name pflag gives the type of a flag value. -/
def FlagValue.typeName : FlagValue → String
  | FlagValue.string _ => "string"
  | FlagValue.stringToString _ => "stringToString"
  | FlagValue.bool _ => "bool"

/-- The function `GetBool`: the value of the boolean flag `name` after a successful
parse, or the text of the error when the flag set holds no boolean flag of that name. -/
def boolFlag (flags : List Flag) (flagArgs : List (String × String)) (name : String) :
    Except String Bool :=
  match flags.find? (fun f => f.name == name) with
  | none => Except.error ("flag accessed but not defined: " ++ name)
  | some ⟨_, FlagValue.bool d, _⟩ =>
    match flagArgs.reverse.lookup name with
    | some v =>
      match ParseBool v with
      | some b => Except.ok b
      | none => Except.error ("strconv.ParseBool: parsing \"" ++ v ++ "\": invalid syntax")
    | none => Except.ok d
  | some ⟨_, other, _⟩ =>
    Except.error ("trying to get bool value of flag of type " ++ other.typeName)

/-- The flag set cobra parses a command line against: the flags declared on the
command, then the `help` flag cobra adds to every command that declares none of
that name (a lookup takes the first flag of a name).  Flags inherited from parent
commands are declared outside this file and are not part of it. -/
def flagSet {σ : Type} (c : Command σ) : List Flag :=
  c.flags ++
    [⟨"help", FlagValue.bool false,
      "help for " ++ String.mk (c.Use.toList.takeWhile (fun ch => ch != ' '))⟩]

/-- Whether the command line asks for help: the `help` flag is true after parsing. -/
def helpRequested {σ : Type} (c : Command σ) (inv : Invocation) : Bool :=
  match boolFlag (flagSet c) inv.flagArgs "help" with
  | Except.ok b => b
  | Except.error _ => false

/-- The run of one command by cobra (`Command.execute`, as `ExecuteC` completes it),
once the command has been found: the flags are parsed and a parse error is returned;
when help is asked for, `execute` returns `flag.ErrHelp` before anything else, on
which `ExecuteC` prints the help and returns nil; otherwise the positional arguments
are validated by `Args`, and only then is `RunE` called with them.  `csvRead` is the
record reader of Go's `encoding/csv`, which pflag uses for string-to-string values. -/
def execute {σ : Type} (csvRead : String → Except String (List String)) (c : Command σ)
    (env : Env σ) (inv : Invocation) (w : World σ) : Outcome σ :=
  match parseFlags csvRead (flagSet c) inv.flagArgs with
  | some err => Outcome.returned w (some err)
  | none =>
    match boolFlag (flagSet c) inv.flagArgs "help" with
    | Except.error e => Outcome.returned w (some (Error.Message e))
    | Except.ok true => Outcome.returned w none
    | Except.ok false =>
      match c.Args with
      | some validate =>
        match validate inv.args with
        | some err => Outcome.returned w (some err)
        | none => c.RunE env ⟨c.Use, inv⟩ inv.args w
      | none => c.RunE env ⟨c.Use, inv⟩ inv.args w

/-! ## create.go -/

/-- The function `createDockerContext`: obtain the store from the context, call its `Create`
with the four arguments, return the result. -/
def createDockerContext {σ : Type} (env : Env σ) (w : World σ)
    (name contextType description : String) (data : Descriptor) : World σ × Option Error :=
  -- s := store.ContextStore(ctx)
  let w1 : World σ := { w with calls := w.calls ++ [Call.ContextStore] }
  -- result := s.Create(name, contextType, description, data)
  let result := env.Create w1.sys name contextType description data
  let w2 : World σ :=
    { sys := result.1, calls := w1.calls ++ [Call.Create name contextType description data] }
  -- return result
  (w2, result.2)

/-- The function `addDescriptionFlag`: declares the string flag `description`, default `""`. -/
def addDescriptionFlag (flags : List Flag) : List Flag :=
  -- cmd.Flags().StringVar(descriptionOpt, "description", "", "Description of the context")
  flagsString flags "description" "" "Description of the context"

/-- The struct `descriptionCreateOpts`, filled from the flags when the command line is parsed. -/
structure descriptionCreateOpts where
  description : String
  deriving DecidableEq, Repr

/-- The options as the handler sees them: `opts.description` is bound to the
`description` flag by `addDescriptionFlag`. -/
def boundOpts (cmd : CmdObject) : descriptionCreateOpts :=
  ⟨stringFlag (addDescriptionFlag []) cmd.invocation.flagArgs "description"⟩

/-- The Go expression `args[0]`: the first element, or a runtime panic when there is none. -/
def index0 (args : List String) : Except String String :=
  match args with
  | a :: _ => Except.ok a
  | [] => Except.error "runtime error: index out of range [0] with length 0"

/-- The command line flags that set `--description` to `d`, or do not set it. -/
def descriptionFlag : Option String → List (String × String)
  | some d => [("description", d)]
  | none => []

/-- The constant `longHelp` of `createCommand`. -/
def longHelp : String :=
  "Create a new context\n" ++
  "\n" ++
  "Create docker engine context: \n" ++
  "$ docker context create CONTEXT [flags]\n" ++
  "\n" ++
  "Create Azure Container Instances context:\n" ++
  "$ docker context create aci CONTEXT [flags]\n" ++
  "(see docker context create aci --help)\n" ++
  "\n" ++
  "Docker endpoint config:\n" ++
  "\n" ++
  "NAME                DESCRIPTION\n" ++
  "from                Copy named context's Docker endpoint configuration\n" ++
  "host                Docker endpoint on which to connect\n" ++
  "ca                  Trust certs signed only by this CA\n" ++
  "cert                Path to TLS certificate file\n" ++
  "key                 Path to TLS key file\n" ++
  "skip-tls-verify     Skip TLS certificate validation\n" ++
  "\n" ++
  "Kubernetes endpoint config:\n" ++
  "\n" ++
  "NAME                 DESCRIPTION\n" ++
  "from                 Copy named context's Kubernetes endpoint configuration\n" ++
  "config-file          Path to a Kubernetes config file\n" ++
  "context-override     Overrides the context set in the kubernetes config file\n" ++
  "namespace-override   Overrides the namespace set in the kubernetes config file\n" ++
  "\n" ++
  "Example:\n" ++
  "\n" ++
  "$ docker context create my-context --description \"some description\" --docker \"host=tcp://myserver:2376,ca=~/ca-file,cert=~/cert-file,key=~/key-file\""

/-- The function `createLocalCommand`. -/
def createLocalCommand {σ : Type} : Command σ :=
  Command.mk "local CONTEXT" "Create a context for accessing local engine" ""
    (some (ExactArgs 1)) true
    (fun env cmd args w =>
      match index0 args with
      | Except.error reason => Outcome.panicked reason
      | Except.ok name =>
        let r := createDockerContext env w name LocalContextType (boundOpts cmd).description
          Descriptor.Local
        Outcome.returned r.1 r.2)
    (addDescriptionFlag [])
    []

/-- The function `createExampleCommand`. -/
def createExampleCommand {σ : Type} : Command σ :=
  Command.mk "example CONTEXT" "Create a test context returning fixed output" ""
    (some (ExactArgs 1)) true
    (fun env cmd args w =>
      match index0 args with
      | Except.error reason => Outcome.panicked reason
      | Except.ok name =>
        let r := createDockerContext env w name ExampleContextType (boundOpts cmd).description
          (Descriptor.Example [])
        Outcome.returned r.1 r.2)
    (addDescriptionFlag [])
    []

/-- The function `createCommand`, given `createAciCommand()`, which is declared in another file. -/
def createCommand {σ : Type} (createAciCommand : Command σ) : Command σ :=
  Command.mk "create CONTEXT" "Create new context" longHelp
    none false
    (fun env cmd _args w =>
      -- return dockerclassic.ExecCmd(cmd)
      let r := env.ExecCmd cmd w.sys
      Outcome.returned { sys := r.1, calls := w.calls ++ [Call.ExecCmd cmd] } r.2)
    (flagsString
      (flagsStringToString
        (flagsStringToString
          (flagsString
            (flagsString [] "description" "" "Description of the context")
            "default-stack-orchestrator" ""
            "Default orchestrator for stack operations to use with this context (swarm|kubernetes|all)")
          "docker" [] "set the docker endpoint")
        "kubernetes" [] "set the kubernetes endpoint")
      "from" "" "create context from a named context")
    [createAciCommand, createLocalCommand, createExampleCommand]

/-! ## The context store

The store package is not part of this file; what follows is its contract. -/

/-- Modelled from the spec: the Context record of the store package (section 3):
`name`, `description` and `endpoints`, a mapping from endpoint-kind tag to
descriptor.  The opaque `metadataVersion` carries no behaviour and is left out. -/
structure Context where
  name : String
  description : String
  endpoints : List (String × Descriptor)
  deriving DecidableEq, Repr

/-- Modelled from the spec: the name rule of the store package (sections 3 and 4.1):
a name is valid when it is non-empty and holds no path-unsafe character.  The spec
does not list the path-unsafe characters, so the test `pathSafe` is a parameter. -/
def validName (pathSafe : Char → Bool) (name : String) : Bool :=
  decide (name ≠ "") && name.toList.all pathSafe

/-- Modelled from the spec: the state of the context store of the store package
(section 3): the records it holds, whose names are valid and unique across the store. -/
structure Store (pathSafe : Char → Bool) where
  contexts : List Context
  names_valid : ∀ c ∈ contexts, validName pathSafe c.name = true
  names_unique : (contexts.map Context.name).Nodup

namespace Store

variable {pathSafe : Char → Bool}

/-- Modelled from the spec: the store of the store package before any `Create`. -/
def empty : Store pathSafe :=
  { contexts := []
    names_valid := fun _ hc => absurd hc (List.not_mem_nil _)
    names_unique := List.nodup_nil }

/-- Modelled from the spec: whether the store of the store package holds a record
named `name`. -/
def holds (s : Store pathSafe) (name : String) : Bool :=
  s.contexts.any (fun c => c.name == name)

/-- Modelled from the spec: `Get(name) → Context | NotFound` of the store package
(section 4.1). -/
def Get (s : Store pathSafe) (name : String) : Except Error Context :=
  match s.contexts.find? (fun c => c.name == name) with
  | some c => Except.ok c
  | none => Except.error Error.NotFound

/-- Modelled from the spec: `Create(name, endpointKind, description, descriptor)` of
the store package (section 4.1): fails with `AlreadyExists` if `name` is already
present, fails with `InvalidName` if the name is empty or holds a path-unsafe
character, and otherwise writes the whole new record; on failure the state is
left exactly as before the call.  The storage underneath is taken not to fail, so
`PersistenceFailure` is never produced here. -/
def Create (s : Store pathSafe) (name endpointKind description : String)
    (descriptor : Descriptor) : Store pathSafe × Option Error :=
  if hp : s.holds name = true then (s, some Error.AlreadyExists)
  else if hv : validName pathSafe name = true then
    ({ contexts := s.contexts ++ [⟨name, description, [(endpointKind, descriptor)]⟩]
       names_valid := by
         intro c hc
         rcases List.mem_append.mp hc with h | h
         · exact s.names_valid c h
         · rw [List.mem_singleton.mp h]; exact hv
       names_unique := by
         rw [List.map_append, List.nodup_append]
         refine ⟨s.names_unique, List.nodup_singleton _, ?_⟩
         intro a ha hb
         rw [List.map_cons, List.map_nil, List.mem_singleton] at hb
         subst hb
         obtain ⟨c, hc, hn⟩ := List.mem_map.mp ha
         apply hp
         simp only [holds, List.any_eq_true]
         exact ⟨c, hc, by simp [hn]⟩ }, none)
  else (s, some Error.InvalidName)

end Store

/-- The collaborators when the store behind `store.ContextStore(ctx)` is the
store of the contract above; the legacy executor stays a parameter. -/
def storeEnv {pathSafe : Char → Bool}
    (ExecCmd : CmdObject → Store pathSafe → Store pathSafe × Option Error) : Env (Store pathSafe) :=
  { Create := Store.Create, ExecCmd := ExecCmd }

/-- A legacy executor that does nothing, for concrete runs of the subcommands. -/
def idleExecCmd {pathSafe : Char → Bool} :
    CmdObject → Store pathSafe → Store pathSafe × Option Error :=
  fun _ s => (s, none)

/-- A concrete path-safety test for examples: every character but the slash. -/
def noSlash : Char → Bool := fun c => c != '/'

/-- A store for concrete runs: the empty store after `local1` was created in it. -/
def storeWithLocal1 : Store noSlash :=
  (Store.empty.Create "local1" LocalContextType "" Descriptor.Local).1

/-- A csv record reader for concrete runs: the fields between the commas. -/
def commaFields : List Char → List Char → List String
  | [], field => [String.mk field.reverse]
  | c :: rest, field =>
    if c = ',' then String.mk field.reverse :: commaFields rest []
    else commaFields rest (c :: field)

/-- A csv record reader for concrete runs: it splits at the commas and never fails. -/
def plainCsv : String → Except String (List String) :=
  fun val => Except.ok (commaFields val.toList [])

/-! ## Properties of the handlers -/

section Handlers

variable {σ : Type} (csvRead : String → Except String (List String))

theorem stringFlag_descriptionFlag (d : Option String) :
    stringFlag (addDescriptionFlag []) (descriptionFlag d) "description" = d.getD "" := by
  cases d <;> rfl

theorem parseFlags_descriptionFlag (c : Command σ) (d : Option String)
    (hflags : c.flags = addDescriptionFlag []) :
    parseFlags csvRead (flagSet c) (descriptionFlag d) = none := by
  cases d <;> simp [parseFlags, flagSet, hflags, addDescriptionFlag, flagsString,
    descriptionFlag, setFlag]

theorem boolFlag_descriptionFlag (c : Command σ) (d : Option String)
    (hflags : c.flags = addDescriptionFlag []) :
    boolFlag (flagSet c) (descriptionFlag d) "help" = Except.ok false := by
  cases d <;> simp [boolFlag, flagSet, hflags, addDescriptionFlag, flagsString,
    descriptionFlag, List.lookup]

theorem execute_createLocalCommand (env : Env σ) (w : World σ) (n : String) (d : Option String) :
    execute csvRead createLocalCommand env ⟨[n], descriptionFlag d⟩ w =
      Outcome.returned
        (createDockerContext env w n LocalContextType (d.getD "") Descriptor.Local).1
        (createDockerContext env w n LocalContextType (d.getD "") Descriptor.Local).2 := by
  unfold execute
  rw [parseFlags_descriptionFlag csvRead createLocalCommand d rfl,
    boolFlag_descriptionFlag createLocalCommand d rfl]
  simp [createLocalCommand, Command.Args, Command.RunE, Command.Use, ExactArgs, index0,
    boundOpts,
    stringFlag_descriptionFlag]

theorem execute_createExampleCommand (env : Env σ) (w : World σ) (n : String) (d : Option String) :
    execute csvRead createExampleCommand env ⟨[n], descriptionFlag d⟩ w =
      Outcome.returned
        (createDockerContext env w n ExampleContextType (d.getD "") (Descriptor.Example [])).1
        (createDockerContext env w n ExampleContextType (d.getD "") (Descriptor.Example [])).2 := by
  unfold execute
  rw [parseFlags_descriptionFlag csvRead createExampleCommand d rfl,
    boolFlag_descriptionFlag createExampleCommand d rfl]
  simp [createExampleCommand, Command.Args, Command.RunE, Command.Use, ExactArgs, index0,
    boundOpts,
    stringFlag_descriptionFlag]

/-- C1: for every store (every implementation of `Create`), every name, context type,
description and payload, `createDockerContext` obtains the store, calls `Create`
exactly once, with the four arguments unchanged, and returns exactly the error
value that call returned (`none` when it succeeded); it leaves the state as that
one call left it. -/
theorem createDockerContext_returns_Create_result (env : Env σ) (w : World σ)
    (name contextType description : String) (data : Descriptor) :
    (createDockerContext env w name contextType description data).2 =
        (env.Create w.sys name contextType description data).2 ∧
      (createDockerContext env w name contextType description data).1.sys =
        (env.Create w.sys name contextType description data).1 ∧
      (createDockerContext env w name contextType description data).1.calls =
        w.calls ++ [Call.ContextStore, Call.Create name contextType description data] := by
  refine ⟨rfl, rfl, ?_⟩
  simp [createDockerContext]

/-- C5: the handler of the bare `create CONTEXT` command hands the command object to
`dockerclassic.ExecCmd` and returns its result unchanged; the only call it makes
is that one (it neither obtains the store nor calls `Create`), and its outcome is
the same whatever the store's `Create` is. -/
theorem createCommand_hands_over_to_ExecCmd (createAciCommand : Command σ) (env : Env σ)
    (cmd : CmdObject) (args : List String) (w : World σ) :
    (createCommand createAciCommand).RunE env cmd args w =
        Outcome.returned
          { sys := (env.ExecCmd cmd w.sys).1, calls := w.calls ++ [Call.ExecCmd cmd] }
          (env.ExecCmd cmd w.sys).2 ∧
      Call.ContextStore ∉ [Call.ExecCmd cmd] ∧
      (∀ name contextType description data,
        Call.Create name contextType description data ∉ [Call.ExecCmd cmd]) ∧
      (∀ otherCreate : σ → String → String → String → Descriptor → σ × Option Error,
        (createCommand createAciCommand).RunE { env with Create := otherCreate } cmd args w =
          (createCommand createAciCommand).RunE env cmd args w) := by
  refine ⟨rfl, ?_, ?_, fun _ => rfl⟩
  · simp
  · intro name contextType description data
    simp

/-- C7: the flags the `create` command declares are exactly `description`,
`default-stack-orchestrator`, `docker`, `kubernetes` and `from`; `description`,
`default-stack-orchestrator` and `from` are string flags with default `""`, `docker`
and `kubernetes` are string-to-string map flags with an empty default. -/
theorem createCommand_declared_flags (createAciCommand : Command σ) :
    (createCommand createAciCommand).flags.map (fun f => (f.name, f.defValue)) =
      [ ("description", FlagValue.string ""),
        ("default-stack-orchestrator", FlagValue.string ""),
        ("docker", FlagValue.stringToString []),
        ("kubernetes", FlagValue.stringToString []),
        ("from", FlagValue.string "") ] := by
  rfl

/-- C9: for every name `n` and description `d` (absent flag: `""`), running the `example`
subcommand with the single positional argument `n` calls the store's `Create` once
with `n`, `store.ExampleContextType`, the description and the fixed payload
`store.ExampleContext{}`, and returns what that call returned. -/
theorem example_subcommand_calls_Create (env : Env σ) (w : World σ) (n : String)
    (d : Option String) :
    execute csvRead createExampleCommand env ⟨[n], descriptionFlag d⟩ w =
      Outcome.returned
        { sys := (env.Create w.sys n ExampleContextType (d.getD "") (Descriptor.Example [])).1,
          calls := w.calls ++ [Call.ContextStore,
            Call.Create n ExampleContextType (d.getD "") (Descriptor.Example [])] }
        (env.Create w.sys n ExampleContextType (d.getD "") (Descriptor.Example [])).2 := by
  rw [execute_createExampleCommand csvRead]
  simp [createDockerContext]

theorem execute_no_panic_of_handler (c : Command σ) (env : Env σ) (inv : Invocation) (w : World σ)
    (validate : List String → Option Error) (hargs : c.Args = some validate)
    (hrun : validate inv.args = none →
      ∀ reason, c.RunE env ⟨c.Use, inv⟩ inv.args w ≠ Outcome.panicked reason) :
    ∀ reason, execute csvRead c env inv w ≠ Outcome.panicked reason := by
  intro reason
  unfold execute
  rw [hargs]
  cases parseFlags csvRead (flagSet c) inv.flagArgs with
  | some err => simp
  | none =>
    cases boolFlag (flagSet c) inv.flagArgs "help" with
    | error e => simp
    | ok b =>
      cases b with
      | true => simp
      | false =>
        cases hv : validate inv.args with
        | some err => simp [hv]
        | none => simpa [hv] using hrun hv reason

theorem execute_rejects_of_validator (c : Command σ) (env : Env σ) (inv : Invocation)
    (w : World σ) (validate : List String → Option Error) (hargs : c.Args = some validate)
    (err : Error) (hrej : validate inv.args = some err) :
    (∃ e, execute csvRead c env inv w = Outcome.returned w (some e)) ∨
      (helpRequested c inv = true ∧ execute csvRead c env inv w = Outcome.returned w none) := by
  unfold execute helpRequested
  rw [hargs]
  cases parseFlags csvRead (flagSet c) inv.flagArgs with
  | some e => exact Or.inl ⟨_, rfl⟩
  | none =>
    cases boolFlag (flagSet c) inv.flagArgs "help" with
    | error e => exact Or.inl ⟨_, rfl⟩
    | ok b =>
      cases b with
      | true => exact Or.inr ⟨rfl, rfl⟩
      | false => exact Or.inl ⟨err, by simp [hrej]⟩

theorem ExactArgs_one_accepts (args : List String) (h : ExactArgs 1 args = none) :
    ∃ a, args = [a] := by
  unfold ExactArgs at h
  split at h
  · cases h
  · rename_i hlen
    match args, hlen with
    | [a], _ => exact ⟨a, rfl⟩
    | [], hlen => simp at hlen
    | _ :: _ :: _, hlen => simp at hlen

theorem ExactArgs_one_rejects (args : List String) (h : args.length ≠ 1) :
    ∃ err, ExactArgs 1 args = some err := by
  unfold ExactArgs
  rw [if_pos h]
  exact ⟨_, rfl⟩

/-- C10, as the code has it: the handlers of `local` and `example` read `args[0]`; every
argument list that `cobra.ExactArgs(1)` accepts has an element at index 0, so no
run of either command panics; on an argument list whose length is not 1 (0, or 2
and more) the handler is never reached, the state and the record of calls stay
untouched (the store is not called), and the run yields an error unless help was
asked for, in which case it returns nil. -/
theorem subcommand_index_in_bounds (env : Env σ) (inv : Invocation) (w : World σ) :
    (∀ args, ExactArgs 1 args = none → ∃ a, index0 args = Except.ok a) ∧
      (∀ reason, execute csvRead createLocalCommand env inv w ≠ Outcome.panicked reason) ∧
      (∀ reason, execute csvRead createExampleCommand env inv w ≠ Outcome.panicked reason) ∧
      (inv.args.length ≠ 1 →
        ((∃ err, execute csvRead createLocalCommand env inv w =
              Outcome.returned w (some err)) ∨
          (helpRequested (createLocalCommand : Command σ) inv = true ∧
            execute csvRead createLocalCommand env inv w = Outcome.returned w none)) ∧
        ((∃ err, execute csvRead createExampleCommand env inv w =
              Outcome.returned w (some err)) ∨
          (helpRequested (createExampleCommand : Command σ) inv = true ∧
            execute csvRead createExampleCommand env inv w = Outcome.returned w none))) := by
  refine ⟨?_, ?_, ?_, ?_⟩
  · intro args h
    obtain ⟨a, rfl⟩ := ExactArgs_one_accepts args h
    exact ⟨a, rfl⟩
  · apply execute_no_panic_of_handler csvRead createLocalCommand env inv w (ExactArgs 1) rfl
    intro h reason
    obtain ⟨a, ha⟩ := ExactArgs_one_accepts inv.args h
    simp [createLocalCommand, Command.RunE, ha, index0]
  · apply execute_no_panic_of_handler csvRead createExampleCommand env inv w (ExactArgs 1) rfl
    intro h reason
    obtain ⟨a, ha⟩ := ExactArgs_one_accepts inv.args h
    simp [createExampleCommand, Command.RunE, ha, index0]
  · intro h
    obtain ⟨err, herr⟩ := ExactArgs_one_rejects inv.args h
    exact ⟨execute_rejects_of_validator csvRead createLocalCommand env inv w (ExactArgs 1) rfl
        err herr,
      execute_rejects_of_validator csvRead createExampleCommand env inv w (ExactArgs 1) rfl
        err herr⟩

/-- Witness of C10: `local` run with two positional arguments and no flag. -/
theorem subcommand_index_in_bounds_witness :
    (["a", "b"] : List String).length ≠ 1 ∧
      ((∃ err, execute plainCsv createLocalCommand (storeEnv idleExecCmd) ⟨["a", "b"], []⟩
            ⟨(Store.empty : Store noSlash), []⟩ =
              Outcome.returned ⟨Store.empty, []⟩ (some err)) ∨
        (helpRequested (createLocalCommand : Command (Store noSlash)) ⟨["a", "b"], []⟩ = true ∧
          execute plainCsv createLocalCommand (storeEnv idleExecCmd) ⟨["a", "b"], []⟩
            ⟨(Store.empty : Store noSlash), []⟩ = Outcome.returned ⟨Store.empty, []⟩ none)) :=
  ⟨by decide,
    ((subcommand_index_in_bounds plainCsv (storeEnv idleExecCmd) ⟨["a", "b"], []⟩
      ⟨(Store.empty : Store noSlash), []⟩).2.2.2 (by decide)).1⟩

/-- Counterexample to C10 as stated: `local --help` with no positional argument has an
argument list of length 0 and yields no error: the run returns nil, with the state
and the record of calls untouched. -/
theorem local_help_without_argument_returns_nil :
    ([] : List String).length = 0 ∧
      execute plainCsv createLocalCommand (storeEnv idleExecCmd) ⟨[], [("help", "true")]⟩
          ⟨(Store.empty : Store noSlash), []⟩ =
        Outcome.returned ⟨Store.empty, []⟩ none ∧
      ¬ ∃ err, execute plainCsv createLocalCommand (storeEnv idleExecCmd)
          ⟨[], [("help", "true")]⟩ ⟨(Store.empty : Store noSlash), []⟩ =
        Outcome.returned ⟨Store.empty, []⟩ (some err) := by
  refine ⟨rfl, rfl, ?_⟩
  rintro ⟨err, h⟩
  have h2 : execute plainCsv createLocalCommand (storeEnv idleExecCmd)
      ⟨[], [("help", "true")]⟩ ⟨(Store.empty : Store noSlash), []⟩ =
      Outcome.returned ⟨Store.empty, []⟩ none := rfl
  rw [h2] at h
  injection h with _ herr
  cases herr

end Handlers

/-! ## Properties that rest on the store contract -/

section StoreContract

variable {pathSafe : Char → Bool} (csvRead : String → Except String (List String))

theorem Store.holds_of_Get (s : Store pathSafe) (name : String) (A : Context)
    (h : s.Get name = Except.ok A) : s.holds name = true := by
  unfold Store.Get at h
  cases hf : s.contexts.find? (fun c => c.name == name) with
  | none => rw [hf] at h; cases h
  | some c =>
    simp only [Store.holds, List.any_eq_true]
    exact ⟨c, List.mem_of_find?_eq_some hf, by simpa using List.find?_some hf⟩

theorem Store.Create_of_holds (s : Store pathSafe) (name endpointKind description : String)
    (descriptor : Descriptor) (h : s.holds name = true) :
    s.Create name endpointKind description descriptor = (s, some Error.AlreadyExists) := by
  unfold Store.Create
  rw [dif_pos h]

theorem Store.holds_valid (s : Store pathSafe) (name : String) (h : s.holds name = true) :
    validName pathSafe name = true := by
  simp only [Store.holds, List.any_eq_true] at h
  obtain ⟨c, hc, hn⟩ := h
  have hcn : c.name = name := by simpa using hn
  rw [← hcn]
  exact s.names_valid c hc

theorem Store.Create_empty_name (s : Store pathSafe) (endpointKind description : String)
    (descriptor : Descriptor) :
    s.Create "" endpointKind description descriptor = (s, some Error.InvalidName) := by
  have hv : ¬ validName pathSafe "" = true := by simp [validName]
  have hp : ¬ s.holds "" = true := fun h => hv (s.holds_valid "" h)
  unfold Store.Create
  rw [dif_neg hp, dif_neg hv]

theorem Store.find?_append_new (l : List Context) (c0 : Context)
    (h : ¬ l.any (fun c => c.name == c0.name) = true) :
    (l ++ [c0]).find? (fun c => c.name == c0.name) = some c0 := by
  induction l with
  | nil => simp
  | cons a t ih =>
    simp only [List.any_cons, Bool.or_eq_true, not_or] at h
    have ha : (a.name == c0.name) = false := by simpa using h.1
    rw [List.cons_append, List.find?_cons, ha]
    exact ih h.2

theorem Store.Get_of_Create_ok (s : Store pathSafe) (name endpointKind description : String)
    (descriptor : Descriptor)
    (h : (s.Create name endpointKind description descriptor).2 = none) :
    (s.Create name endpointKind description descriptor).1.Get name =
      Except.ok ⟨name, description, [(endpointKind, descriptor)]⟩ := by
  unfold Store.Create at h ⊢
  by_cases hp : s.holds name = true
  · rw [dif_pos hp] at h; cases h
  · by_cases hv : validName pathSafe name = true
    · rw [dif_neg hp, dif_pos hv]
      simp only [Store.Get]
      have := Store.find?_append_new s.contexts ⟨name, description, [(endpointKind, descriptor)]⟩ hp
      simp only at this
      rw [this]
    · rw [dif_neg hp, dif_neg hv] at h; cases h

/-- C2: for every name `n` and description `d` (absent flag: `""`), running the `local`
subcommand with the single positional argument `n` calls the store's `Create` with
`n`, `store.LocalContextType`, the description and `store.LocalContext{}`, and returns
its result; when the store is the one of the store contract and the run succeeds,
`Get(n)` afterwards returns the record with name `n`, that description and the
single endpoint `local` with the empty descriptor. -/
theorem local_subcommand_creates_local_context {σ : Type} (env : Env σ) (w0 : World σ)
    (exec : CmdObject → Store pathSafe → Store pathSafe × Option Error)
    (w : World (Store pathSafe)) (n : String) (d : Option String) :
    execute csvRead createLocalCommand env ⟨[n], descriptionFlag d⟩ w0 =
        Outcome.returned
          { sys := (env.Create w0.sys n LocalContextType (d.getD "") Descriptor.Local).1,
            calls := w0.calls ++ [Call.ContextStore,
              Call.Create n LocalContextType (d.getD "") Descriptor.Local] }
          (env.Create w0.sys n LocalContextType (d.getD "") Descriptor.Local).2 ∧
      (∀ after : World (Store pathSafe),
        execute csvRead createLocalCommand (storeEnv exec) ⟨[n], descriptionFlag d⟩ w =
            Outcome.returned after none →
          after.sys.Get n = Except.ok ⟨n, d.getD "", [("local", Descriptor.Local)]⟩) := by
  constructor
  · rw [execute_createLocalCommand csvRead]
    simp [createDockerContext]
  · intro after hrun
    rw [execute_createLocalCommand csvRead] at hrun
    injection hrun with hw herr
    have hok : (w.sys.Create n LocalContextType (d.getD "") Descriptor.Local).2 = none := herr
    have hget := Store.Get_of_Create_ok w.sys n LocalContextType (d.getD "") Descriptor.Local hok
    rw [← hw]
    exact hget

/-- Witness of C2: `local local1` with no description, on the empty store. -/
theorem local_subcommand_creates_local_context_witness :
    execute plainCsv createLocalCommand (storeEnv idleExecCmd) ⟨["local1"], descriptionFlag none⟩
        ⟨(Store.empty : Store noSlash), []⟩ =
      Outcome.returned
        ⟨storeWithLocal1, [Call.ContextStore, Call.Create "local1" "local" "" Descriptor.Local]⟩
        none ∧
    storeWithLocal1.Get "local1" =
      Except.ok ⟨"local1", "", [("local", Descriptor.Local)]⟩ :=
  ⟨rfl,
    (local_subcommand_creates_local_context plainCsv (storeEnv idleExecCmd)
      ⟨(Store.empty : Store noSlash), []⟩ idleExecCmd ⟨Store.empty, []⟩ "local1" none).2
      ⟨storeWithLocal1, [Call.ContextStore, Call.Create "local1" "local" "" Descriptor.Local]⟩
      rfl⟩

/-- C3: for every store that already holds a context named `n`, creating a context named
`n` through `createDockerContext`, and so through the `local` and `example`
subcommands, fails with `AlreadyExists`, and the store afterwards is the store
before the call: the existing record for `n` and every other record are unchanged. -/
theorem create_existing_name_fails
    (exec : CmdObject → Store pathSafe → Store pathSafe × Option Error)
    (w : World (Store pathSafe)) (n : String) (A : Context)
    (hA : w.sys.Get n = Except.ok A)
    (contextType description : String) (data : Descriptor) (d : Option String) :
    ((createDockerContext (storeEnv exec) w n contextType description data).2 =
          some Error.AlreadyExists ∧
        (createDockerContext (storeEnv exec) w n contextType description data).1.sys = w.sys ∧
        (createDockerContext (storeEnv exec) w n contextType description data).1.sys.Get n =
          Except.ok A) ∧
      execute csvRead createLocalCommand (storeEnv exec) ⟨[n], descriptionFlag d⟩ w =
        Outcome.returned
          ⟨w.sys, w.calls ++ [Call.ContextStore,
            Call.Create n LocalContextType (d.getD "") Descriptor.Local]⟩
          (some Error.AlreadyExists) ∧
      execute csvRead createExampleCommand (storeEnv exec) ⟨[n], descriptionFlag d⟩ w =
        Outcome.returned
          ⟨w.sys, w.calls ++ [Call.ContextStore,
            Call.Create n ExampleContextType (d.getD "") (Descriptor.Example [])]⟩
          (some Error.AlreadyExists) := by
  have hp := Store.holds_of_Get w.sys n A hA
  have hcreate := fun ct ds dt => Store.Create_of_holds w.sys n ct ds dt hp
  have key : ∀ (ct ds : String) (dt : Descriptor),
      (createDockerContext (storeEnv exec) w n ct ds dt).2 = some Error.AlreadyExists ∧
        (createDockerContext (storeEnv exec) w n ct ds dt).1.sys = w.sys := by
    intro ct ds dt
    simp [createDockerContext, storeEnv, Store.Create_of_holds w.sys n ct ds dt hp]
  refine ⟨⟨(key _ _ _).1, (key _ _ _).2, ?_⟩, ?_, ?_⟩
  · rw [(key _ _ _).2]; exact hA
  · rw [execute_createLocalCommand csvRead]
    simp [createDockerContext, storeEnv, hcreate]
  · rw [execute_createExampleCommand csvRead]
    simp [createDockerContext, storeEnv, hcreate]

/-- Witness of C3: a second `local1` in a store that holds `local1`. -/
theorem create_existing_name_fails_witness :
    storeWithLocal1.Get "local1" = Except.ok ⟨"local1", "", [("local", Descriptor.Local)]⟩ ∧
    (createDockerContext (storeEnv idleExecCmd) ⟨storeWithLocal1, []⟩ "local1" "example" "again"
        (Descriptor.Example [])).2 = some Error.AlreadyExists ∧
    (createDockerContext (storeEnv idleExecCmd) ⟨storeWithLocal1, []⟩ "local1" "example" "again"
        (Descriptor.Example [])).1.sys = storeWithLocal1 :=
  ⟨by decide,
    (create_existing_name_fails plainCsv idleExecCmd ⟨storeWithLocal1, []⟩ "local1"
      ⟨"local1", "", [("local", Descriptor.Local)]⟩ (by decide) "example" "again"
      (Descriptor.Example []) none).1.1,
    (create_existing_name_fails plainCsv idleExecCmd ⟨storeWithLocal1, []⟩ "local1"
      ⟨"local1", "", [("local", Descriptor.Local)]⟩ (by decide) "example" "again"
      (Descriptor.Example []) none).1.2.1⟩

/-- C4: creating a context with the empty name, through `createDockerContext` or through
the `local` or `example` subcommand run with the single argument `""`, fails with
`InvalidName`, and the store afterwards is the store before the call. -/
theorem create_empty_name_fails
    (exec : CmdObject → Store pathSafe → Store pathSafe × Option Error)
    (w : World (Store pathSafe)) (contextType description : String) (data : Descriptor)
    (d : Option String) :
    ((createDockerContext (storeEnv exec) w "" contextType description data).2 =
          some Error.InvalidName ∧
        (createDockerContext (storeEnv exec) w "" contextType description data).1.sys = w.sys) ∧
      execute csvRead createLocalCommand (storeEnv exec) ⟨[""], descriptionFlag d⟩ w =
        Outcome.returned
          ⟨w.sys, w.calls ++ [Call.ContextStore,
            Call.Create "" LocalContextType (d.getD "") Descriptor.Local]⟩
          (some Error.InvalidName) ∧
      execute csvRead createExampleCommand (storeEnv exec) ⟨[""], descriptionFlag d⟩ w =
        Outcome.returned
          ⟨w.sys, w.calls ++ [Call.ContextStore,
            Call.Create "" ExampleContextType (d.getD "") (Descriptor.Example [])]⟩
          (some Error.InvalidName) := by
  have hcreate := fun ct ds dt => Store.Create_empty_name w.sys ct ds dt
  have key : ∀ (ct ds : String) (dt : Descriptor),
      (createDockerContext (storeEnv exec) w "" ct ds dt).2 = some Error.InvalidName ∧
        (createDockerContext (storeEnv exec) w "" ct ds dt).1.sys = w.sys := by
    intro ct ds dt
    simp [createDockerContext, storeEnv, Store.Create_empty_name w.sys ct ds dt]
  refine ⟨key _ _ _, ?_, ?_⟩
  · rw [execute_createLocalCommand csvRead]
    simp [createDockerContext, storeEnv, hcreate]
  · rw [execute_createExampleCommand csvRead]
    simp [createDockerContext, storeEnv, hcreate]

end StoreContract

end ContextCreate
